import Mathlib

/-!
Shallow embedding of the house-price pipeline
(`preprocess_and_train.py`, `app.py`) and proofs about its
feature-encoding contract.  Numeric values are modelled as `ℚ`;
a pandas null (`NaN`) cell is modelled as `none`.
-/

namespace HousePrice

/-- A raw categorical cell: `none` models a pandas null (`NaN`),
`some s` a string value. -/
abbrev CatCell := Option String

/-- One cell of `cat.fillna(dflt)` inside the encoder fit
(`preprocess_and_train.py`, line 27): the key a row is grouped under. -/
def catKey (dflt : String) (c : CatCell) : String := c.getD dflt

/-- Result dict of `compute_te_map` (`preprocess_and_train.py`, line 30):
the category → smoothed-mean `mapping` (`none` = key absent from the dict),
the `global_mean` fallback, and the `smoothing` constant. -/
structure TEMap where
  mapping : String → Option ℚ
  global_mean : ℚ
  smoothing : ℚ

/-- Mean of a list of values (`np.mean(y)`, `preprocess_and_train.py` line 26,
and the `mean` aggregate of `groupby`). -/
def npMean (y : List ℚ) : ℚ := y.sum / y.length

/-- The target values grouped under category key `c` by
`grp.groupby("cat")["y"]` (`preprocess_and_train.py`, line 28); rows are
positionally aligned (category, target) pairs. -/
def groupVals (rows : List (CatCell × ℚ)) (c : String) : List ℚ :=
  (rows.filter (fun r => catKey "Unknown" r.1 == c)).map Prod.snd

/-- The encoder fit `compute_te_map` (`preprocess_and_train.py`, lines 25–30):
`gmean = np.mean(y)`; the series is `fillna("Unknown")`-keyed and grouped;
per group, `count` is the row count and `mean` is `sum/count`; the dict entry
is `(count * mean + smoothing * gmean) / (count + smoothing)`, present exactly
for the keys that occur in the series. -/
def compute_te_map (rows : List (CatCell × ℚ)) (smoothing : ℚ) : TEMap :=
  { mapping := fun c =>
      if (groupVals rows c).length = 0 then none
      else some ((((groupVals rows c).length : ℚ) *
                    ((groupVals rows c).sum / ((groupVals rows c).length : ℚ)) +
                  smoothing * npMean (rows.map Prod.snd)) /
                 (((groupVals rows c).length : ℚ) + smoothing))
    global_mean := npMean (rows.map Prod.snd)
    smoothing := smoothing }

/-- One cell of `apply_te` (`preprocess_and_train.py`, lines 32–35):
`cat.map(mp)` sends a null cell and any key absent from the dict to `NaN`,
and `.fillna(gmean)` then replaces those with the global mean. -/
def applyTE1 (te : TEMap) (c : CatCell) : ℚ :=
  match c with
  | none => te.global_mean
  | some s => (te.mapping s).getD te.global_mean

/-- The full `apply_te` over a whole series. -/
def apply_te (cat : List CatCell) (te : TEMap) : List ℚ := cat.map (applyTE1 te)

/-- The inference encoder `encode_suburb` (`app.py`, lines 34–37): a
dict-membership test, returning
the mapped value when present and the global mean otherwise. -/
def encode_suburb (te : TEMap) (suburb : String) : ℚ :=
  match te.mapping suburb with
  | some v => v
  | none => te.global_mean

/-- Concrete target-encoder state used to instantiate theorems. -/
def teEx : TEMap :=
  { mapping := fun c => if c = "A" then some 5 else none
    global_mean := 7
    smoothing := 50 }

/-- The raw inference form submission (`app.py`, form block, lines 44–52). -/
structure FormInput where
  suburb : String
  prop_type : String
  rooms : ℚ
  bathroom : ℚ
  car : ℚ
  landsize : ℚ
  building_area : ℚ
  year : ℤ

/-- The `row` dict assembled on submit (`app.py`, lines 57–77), in source
order: user fields pass through, `Distance`, `YearBuilt` and `Month` are
hard-coded, `_missing` flags come from the zero sentinel (or are hard-coded
to 0), `Suburb_TE` is the encoded suburb and `Type_t`/`Type_u` are the
hand-built one-hot indicators. -/
def assembleRow (te : TEMap) (inp : FormInput) : List (String × ℚ) :=
  [("Rooms", inp.rooms),
   ("Distance", 0),
   ("Bathroom", inp.bathroom),
   ("Car", inp.car),
   ("Landsize", inp.landsize),
   ("BuildingArea", inp.building_area),
   ("YearBuilt", 0),
   ("Year", (inp.year : ℚ)),
   ("Month", 0),
   ("Rooms_missing", 0),
   ("Distance_missing", 0),
   ("Bathroom_missing", 0),
   ("Car_missing", 0),
   ("Landsize_missing", if inp.landsize ≠ 0 then 0 else 1),
   ("BuildingArea_missing", if inp.building_area ≠ 0 then 0 else 1),
   ("YearBuilt_missing", 0),
   ("Suburb_TE", encode_suburb te inp.suburb),
   ("Type_t", if inp.prop_type = "t" then 1 else 0),
   ("Type_u", if inp.prop_type = "u" then 1 else 0)]

/-- Reindexing of the one-row frame,
`pd.DataFrame([row]).reindex(columns=FEATURE_COLUMNS, fill_value=0)`
(`app.py`, line 79): one output entry per requested column name, in the
requested order, taking the value of the row when the key exists and `0`
otherwise; assembled keys outside the requested list do not survive. -/
def reindexRow (row : List (String × ℚ)) (cols : List String) : List (String × ℚ) :=
  cols.map (fun c => (c, (row.lookup c).getD 0))

/-- Concrete form submission used to instantiate theorems. -/
def inpEx : FormInput :=
  { suburb := "A", prop_type := "t", rooms := 3, bathroom := 1, car := 1
    landsize := 300, building_area := 120, year := 2017 }

/-- Sorted distinct values of a training column: the category order
`pd.get_dummies` uses for an object column. -/
def sortedCats (types : List String) : List String :=
  List.insertionSort (· ≤ ·) types.dedup

/-- Column names emitted by `pd.get_dummies(X, columns=["Type"],
drop_first=True)` (`preprocess_and_train.py`, line 70): one `Type_` column per
distinct observed value in alphabetical order, with the first (reference)
category dropped. -/
def dummyColNames (types : List String) : List String :=
  ((sortedCats types).drop 1).map (fun v => "Type_" ++ v)

/-- The indicator values `get_dummies` assigns to one record whose `Type`
value is `t`, paired with the emitted column names. -/
def dummyRecord (types : List String) (t : String) : List (String × ℚ) :=
  ((sortedCats types).drop 1).map (fun v => ("Type_" ++ v, if t = v then 1 else 0))

/-- The two `Type` indicator entries the inference assembler synthesizes by
hand (`app.py`, lines 75–76). -/
def handTypeCols (t : String) : List (String × ℚ) :=
  [("Type_t", if t = "t" then 1 else 0), ("Type_u", if t = "u" then 1 else 0)]

/-- A pandas DataFrame, modelled as an ordered association list from column
name to the values of that column. -/
def DFrame := List (String × List ℚ)

/-- The ordered column-name list of a frame (`X.columns`; persisted as
`feature_columns`, `preprocess_and_train.py` line 106). -/
def DFrame.colNames (df : DFrame) : List String :=
  List.map Prod.fst df

/-- Column selection `df[cols]`: one column per requested name, in the
requested order. -/
def DFrame.select (df : DFrame) (cols : List String) : DFrame :=
  cols.map (fun c => (c, ((List.lookup c df).getD [])))

/-- Positional row subsetting (`train_test_split` / `iloc` on an index list):
every column is kept, each restricted to the chosen row positions. -/
def DFrame.selectRows (df : DFrame) (idx : List ℕ) : DFrame :=
  List.map (fun p => (p.1, idx.filterMap (fun i => p.2.get? i))) df

/-- The `numeric_cols` list (`preprocess_and_train.py`, line 52). -/
def numeric_cols : List String :=
  ["Rooms", "Distance", "Bathroom", "Car", "Landsize", "BuildingArea", "YearBuilt"]

/-- The filter `num_cols_scaled = [c for c in numeric_cols if c in X.columns]`
(`preprocess_and_train.py`, line 74; persisted at line 108). -/
def numColsScaled (X : DFrame) : List String :=
  numeric_cols.filter (fun c => X.colNames.contains c)

/-- The width `sklearn` records at fit time: `n_features_in_` equals the
number of columns of the matrix passed to `fit`
(`scaler.fit_transform(X[num_cols_scaled])`, line 75, and
`rf.fit(X_fit, y_fit)`, line 91). -/
def nFeaturesIn (X : DFrame) : ℕ := X.colNames.length

/-- One cell after `pd.to_numeric(col, errors="coerce")`
(`preprocess_and_train.py`, lines 54–55): `none` models `NaN` — the raw value
was null or failed numeric parsing — and `some v` a successfully parsed
number. -/
abbrev NumCell := Option ℚ

/-- Ascending sort of rationals, used to state the pandas median. -/
def sortQ (l : List ℚ) : List ℚ := List.insertionSort (· ≤ ·) l

/-- Pandas `Series.median()` over a list of (non-null) values: `none` on an empty
list, the middle element of the sorted list for odd length, and the average
of the two middle elements for even length. -/
def medianQ (l : List ℚ) : Option ℚ :=
  if l.length = 0 then none
  else if l.length % 2 = 1 then some ((sortQ l).getD (l.length / 2) 0)
  else some (((sortQ l).getD (l.length / 2 - 1) 0 + (sortQ l).getD (l.length / 2) 0) / 2)

/-- The median `med = series.median()` followed by the `if pd.isna(med): med = 0.0`
fallback (`preprocess_and_train.py`, lines 56–58): the median is taken over
the non-null cells only, and is `0` when every cell is null. -/
def colMedian (raw : List NumCell) : ℚ := (medianQ (raw.filterMap id)).getD 0

/-- The `df[col+"_missing"]` indicator column (`preprocess_and_train.py`,
line 54): 1 where `to_numeric` produced `NaN`, else 0. -/
def missingFlags (raw : List NumCell) : List ℚ :=
  raw.map (fun c => if c.isSome then 0 else 1)

/-- The fill `df[col] = series.fillna(med)` (`preprocess_and_train.py`, line 59). -/
def imputeColumn (raw : List NumCell) : List ℚ :=
  raw.map (fun c => c.getD (colMedian raw))

/-- Whitespace stripping from both ends of a string (`.str.strip()`). -/
def stripStr (s : String) : String :=
  (((s.toList.dropWhile Char.isWhitespace).reverse.dropWhile
      Char.isWhitespace).reverse).asString

/-- One cell of `df[c].astype(str).str.strip()` for the `Suburb` column
(`preprocess_and_train.py`, lines 45–46): pandas renders a null cell as the
literal string `nan`, then whitespace is stripped from both ends. -/
def stringifyStrip (c : CatCell) : String :=
  stripStr
    (match c with
     | none => "nan"
     | some s => s)

/-- The `Suburb` column as the pipeline hands it to `compute_te_map`
(`preprocess_and_train.py`, line 65): stringified and stripped, hence every
cell is a `some`. -/
def suburbCol (raw : List CatCell) : List CatCell :=
  raw.map (fun c => some (stringifyStrip c))

/-- The fitted suburb encoder `te = compute_te_map(X["Suburb"], y, 50.0)`
(`preprocess_and_train.py`, line 65), rows aligned positionally with the
target. -/
def suburbTE (raw : List CatCell) (y : List ℚ) : TEMap :=
  compute_te_map ((suburbCol raw).zip y) 50

/-- The list `all_suburbs = sorted(df["Suburb"].dropna().unique().tolist())`
(`preprocess_and_train.py`, line 115): the column is already all-string, so
`dropna` keeps everything and the result is the sorted list of distinct
stringified values. -/
def all_suburbs (raw : List CatCell) : List String :=
  List.insertionSort (· ≤ ·) ((raw.map stringifyStrip).dedup)

end HousePrice

namespace HousePrice

/-- C2: for every categorical series, target vector, and smoothing constant,
the fitted target-encoding of each category present in the data equals
`(count * mean + smoothing * global_mean) / (count + smoothing)`, where
`count` and `mean` are the row count and target mean of that category and
`global_mean` is the mean of all target values. -/
theorem te_fit_formula (rows : List (CatCell × ℚ)) (s : ℚ) (c : String)
    (h : 0 < (groupVals rows c).length) :
    (compute_te_map rows s).mapping c =
      some ((((groupVals rows c).length : ℚ) *
               ((groupVals rows c).sum / ((groupVals rows c).length : ℚ)) +
             s * npMean (rows.map Prod.snd)) /
            (((groupVals rows c).length : ℚ) + s)) := by
  simp only [compute_te_map]
  rw [if_neg (by omega)]

/-- Witness for C2 at a concrete three-row dataset. -/
theorem te_fit_formula_witness :
    0 < (groupVals [(some "A", (10 : ℚ)), (some "A", 20), (some "B", 30)] "A").length ∧
    (compute_te_map [(some "A", (10 : ℚ)), (some "A", 20), (some "B", 30)] 50).mapping "A" =
      some ((((groupVals [(some "A", (10 : ℚ)), (some "A", 20), (some "B", 30)] "A").length : ℚ) *
               ((groupVals [(some "A", (10 : ℚ)), (some "A", 20), (some "B", 30)] "A").sum /
                ((groupVals [(some "A", (10 : ℚ)), (some "A", 20), (some "B", 30)] "A").length : ℚ)) +
             50 * npMean ([(some "A", (10 : ℚ)), (some "A", 20), (some "B", 30)].map Prod.snd)) /
            (((groupVals [(some "A", (10 : ℚ)), (some "A", 20), (some "B", 30)] "A").length : ℚ) + 50)) :=
  ⟨by decide, te_fit_formula _ 50 "A" (by decide)⟩

/-- C3: applying the target encoding returns the mapped smoothed mean when the
category is in the fitted mapping and exactly `global_mean` when it is absent
(including a null category); the training-phase `apply_te` cell and the
inference-phase `encode_suburb` agree. -/
theorem te_apply_fallback (te : TEMap) (c : String) :
    (∀ v, te.mapping c = some v →
        applyTE1 te (some c) = v ∧ encode_suburb te c = v) ∧
    (te.mapping c = none →
        applyTE1 te (some c) = te.global_mean ∧
        encode_suburb te c = te.global_mean) ∧
    applyTE1 te none = te.global_mean ∧
    encode_suburb te c = applyTE1 te (some c) := by
  refine ⟨fun v hv => ?_, fun hn => ?_, rfl, ?_⟩
  · simp [applyTE1, encode_suburb, hv]
  · simp [applyTE1, encode_suburb, hn]
  · cases h : te.mapping c <;> simp [applyTE1, encode_suburb, h]

/-- Witness for C3: a mapped category and an unmapped one, concretely. -/
theorem te_apply_fallback_witness :
    applyTE1 teEx (some "A") = 5 ∧ encode_suburb teEx "A" = 5 ∧
    applyTE1 teEx (some "B") = 7 ∧ encode_suburb teEx "B" = 7 ∧
    applyTE1 teEx none = 7 :=
  ⟨((te_apply_fallback teEx "A").1 5 (by simp [teEx])).1,
   ((te_apply_fallback teEx "A").1 5 (by simp [teEx])).2,
   ((te_apply_fallback teEx "B").2.1 (by simp [teEx])).1,
   ((te_apply_fallback teEx "B").2.1 (by simp [teEx])).2,
   (te_apply_fallback teEx "B").2.2.1⟩

/-- C8: fitting the target encoder is order-independent over input rows —
any permutation of the (category, target) rows yields the same mapping,
global mean, and smoothing. -/
theorem te_fit_perm_invariant (rows₁ rows₂ : List (CatCell × ℚ)) (s : ℚ)
    (h : rows₁.Perm rows₂) :
    compute_te_map rows₁ s = compute_te_map rows₂ s := by
  have hy : (rows₁.map Prod.snd).Perm (rows₂.map Prod.snd) := h.map _
  have hg : npMean (rows₁.map Prod.snd) = npMean (rows₂.map Prod.snd) := by
    unfold npMean
    rw [hy.sum_eq, hy.length_eq]
  have hperm : ∀ c, (groupVals rows₁ c).Perm (groupVals rows₂ c) :=
    fun c => (h.filter _).map _
  have hlen : ∀ c, (groupVals rows₁ c).length = (groupVals rows₂ c).length :=
    fun c => (hperm c).length_eq
  have hsum : ∀ c, (groupVals rows₁ c).sum = (groupVals rows₂ c).sum :=
    fun c => (hperm c).sum_eq
  unfold compute_te_map
  simp only [hg, hlen, hsum]

/-- Witness for C8 at a concrete transposition of two rows. -/
theorem te_fit_perm_invariant_witness :
    compute_te_map [(some "A", (1 : ℚ)), (some "B", 2)] 50 =
      compute_te_map [(some "B", (2 : ℚ)), (some "A", 1)] 50 :=
  te_fit_perm_invariant _ _ 50 (List.Perm.swap _ _ _)

/-- Looking a key up in an association list built keyed over `cols` finds the
built value whenever the key is one of the `cols`. -/
theorem lookup_map_key_mem {β : Type} (v : String → β) (c : String) :
    ∀ (cols : List String), c ∈ cols →
      (cols.map (fun d => (d, v d))).lookup c = some (v c) := by
  intro cols h
  induction cols with
  | nil => cases h
  | cons d ds ih =>
    by_cases hcd : c = d
    · subst hcd
      simp
    · have hm : c ∈ ds := by
        rcases List.mem_cons.mp h with h1 | h2
        · exact absurd h1 hcd
        · exact h2
      simp only [List.map_cons, List.lookup_cons, beq_false_of_ne hcd]
      exact ih hm

/-- Looking a key up in an association list built keyed over `cols` fails
whenever the key is not one of the `cols`. -/
theorem lookup_map_key_not_mem {β : Type} (v : String → β) (c : String) :
    ∀ (cols : List String), c ∉ cols →
      (cols.map (fun d => (d, v d))).lookup c = none := by
  intro cols h
  induction cols with
  | nil => simp
  | cons d ds ih =>
    have hcd : c ≠ d := fun he => h (he ▸ List.mem_cons_self d ds)
    have hds : c ∉ ds := fun he => h (List.mem_cons_of_mem d he)
    simp only [List.map_cons, List.lookup_cons, beq_false_of_ne hcd]
    exact ih hds

/-- C1: the reindexed inference vector has exactly the persisted column list
as its keys, in exactly the persisted order; each persisted column takes the
value from the assembled row, defaulting to `0` for columns absent from it; and
any key outside the persisted list is dropped. -/
theorem reindex_contract (te : TEMap) (inp : FormInput) (cols : List String) :
    (reindexRow (assembleRow te inp) cols).map Prod.fst = cols ∧
    (∀ c ∈ cols,
        (reindexRow (assembleRow te inp) cols).lookup c =
          some (((assembleRow te inp).lookup c).getD 0)) ∧
    (∀ c ∈ cols, (assembleRow te inp).lookup c = none →
        (reindexRow (assembleRow te inp) cols).lookup c = some 0) ∧
    (∀ c, c ∉ cols → (reindexRow (assembleRow te inp) cols).lookup c = none) := by
  refine ⟨?_, fun c hc => ?_, fun c hc hn => ?_, fun c hc => ?_⟩
  · simp [reindexRow, Function.comp_def]
  · exact lookup_map_key_mem _ c cols hc
  · simpa [hn] using lookup_map_key_mem
      (fun d => ((assembleRow te inp).lookup d).getD 0) c cols hc
  · exact lookup_map_key_not_mem _ c cols hc

/-- Witness for C1: a concrete column list with a zero-filled trained column
(`Bogus`, absent from the assembled row) and a dropped assembled key
(`Rooms`, absent from the column list). -/
theorem reindex_contract_witness :
    (reindexRow (assembleRow teEx inpEx) ["Landsize", "Bogus"]).map Prod.fst =
      ["Landsize", "Bogus"] ∧
    (reindexRow (assembleRow teEx inpEx) ["Landsize", "Bogus"]).lookup "Bogus" =
      some 0 ∧
    (reindexRow (assembleRow teEx inpEx) ["Landsize", "Bogus"]).lookup "Rooms" =
      none :=
  ⟨(reindex_contract teEx inpEx ["Landsize", "Bogus"]).1,
   (reindex_contract teEx inpEx ["Landsize", "Bogus"]).2.2.1 "Bogus" (by decide)
     (by decide),
   (reindex_contract teEx inpEx ["Landsize", "Bogus"]).2.2.2 "Rooms" (by decide)⟩

/-- C7: in the assembled inference row, `Landsize_missing` is `1` exactly when
the submitted landsize is `0` (and `0` otherwise), and `BuildingArea_missing`
is `1` exactly when the submitted building area is `0` (and `0` otherwise) —
the flags derive from the zero sentinel alone. -/
theorem zero_sentinel_flags (te : TEMap) (inp : FormInput) :
    (assembleRow te inp).lookup "Landsize_missing" =
      some (if inp.landsize = 0 then 1 else 0) ∧
    (assembleRow te inp).lookup "BuildingArea_missing" =
      some (if inp.building_area = 0 then 1 else 0) ∧
    ((assembleRow te inp).lookup "Landsize_missing" = some 1 ↔ inp.landsize = 0) ∧
    ((assembleRow te inp).lookup "BuildingArea_missing" = some 1 ↔
      inp.building_area = 0) := by
  have hl : (assembleRow te inp).lookup "Landsize_missing" =
      some (if inp.landsize = 0 then 1 else 0) := by
    by_cases h : inp.landsize = 0 <;> simp [assembleRow, List.lookup, h]
  have hb : (assembleRow te inp).lookup "BuildingArea_missing" =
      some (if inp.building_area = 0 then 1 else 0) := by
    by_cases h : inp.building_area = 0 <;> simp [assembleRow, List.lookup, h]
  refine ⟨hl, hb, ?_, ?_⟩
  · rw [hl]
    by_cases h : inp.landsize = 0 <;> simp [h]
  · rw [hb]
    by_cases h : inp.building_area = 0 <;> simp [h]

/-- C9: the assembled inference row fixes `Distance`, `YearBuilt` and `Month`
to `0` and marks `Rooms`, `Distance`, `Bathroom`, `Car` and `YearBuilt` as
observed (missing flag `0`) regardless of the submitted input. -/
theorem hardcoded_fields (te : TEMap) (inp : FormInput) :
    (assembleRow te inp).lookup "Distance" = some 0 ∧
    (assembleRow te inp).lookup "YearBuilt" = some 0 ∧
    (assembleRow te inp).lookup "Month" = some 0 ∧
    (assembleRow te inp).lookup "Rooms_missing" = some 0 ∧
    (assembleRow te inp).lookup "Distance_missing" = some 0 ∧
    (assembleRow te inp).lookup "Bathroom_missing" = some 0 ∧
    (assembleRow te inp).lookup "Car_missing" = some 0 ∧
    (assembleRow te inp).lookup "YearBuilt_missing" = some 0 := by
  refine ⟨?_, ?_, ?_, ?_, ?_, ?_, ?_, ?_⟩ <;> simp [assembleRow, List.lookup]

/-- When a `Type` column takes values only in {h, t, u} and all three occur,
its sorted distinct values are exactly `[h, t, u]`. -/
theorem sortedCats_htu (types : List String)
    (hsub : ∀ t ∈ types, t = "h" ∨ t = "t" ∨ t = "u")
    (hh : "h" ∈ types) (ht : "t" ∈ types) (hu : "u" ∈ types) :
    sortedCats types = ["h", "t", "u"] := by
  have hnd : types.dedup.Nodup := List.nodup_dedup types
  have hmem : ∀ a, a ∈ types.dedup ↔ a ∈ ["h", "t", "u"] := by
    intro a
    rw [List.mem_dedup]
    constructor
    · intro ha
      rcases hsub a ha with h1 | h1 | h1 <;> simp [h1]
    · intro ha
      rcases List.mem_cons.mp ha with h1 | ha
      · exact h1 ▸ hh
      rcases List.mem_cons.mp ha with h1 | ha
      · exact h1 ▸ ht
      rcases List.mem_cons.mp ha with h1 | ha
      · exact h1 ▸ hu
      · cases ha
  have hperm : types.dedup.Perm ["h", "t", "u"] :=
    (List.perm_ext_iff_of_nodup hnd (by decide)).mpr hmem
  have hperm2 : (sortedCats types).Perm ["h", "t", "u"] :=
    (List.perm_insertionSort _ types.dedup).trans hperm
  exact List.eq_of_perm_of_sorted hperm2
    (List.sorted_insertionSort _ types.dedup)
    (by
      simp [List.sorted_cons]
      refine ⟨⟨?_, ?_⟩, ?_⟩ <;> decide)

/-- C4 counterexample: a training dataset whose `Type` column takes values
only in the closed domain {h, t, u} but omits `h` and `t`; `get_dummies` with
`drop_first=True` then drops the sole observed category `u` as the reference
and emits no `Type` columns at all, so the emitted columns are not the
hand-built pair {Type_t, Type_u} and the per-record encodings disagree. -/
theorem ohe_counterexample :
    (∀ t ∈ ["u"], t = "h" ∨ t = "t" ∨ t = "u") ∧
    dummyColNames ["u"] ≠ ["Type_t", "Type_u"] ∧
    dummyRecord ["u"] "u" ≠ handTypeCols "u" := by
  refine ⟨?_, ?_, ?_⟩ <;> decide

/-- C4 (amended): for every training dataset whose `Type` column takes values
only in {h, t, u} and in which each of the three values occurs, the one-hot
columns emitted by training with the reference category dropped are exactly
`[Type_t, Type_u]`, and on every record the emitted indicators equal the
hand-built indicators of the inference assembler (`Type_t` = 1 iff the type is `t`,
`Type_u` = 1 iff the type is `u`). -/
theorem ohe_agreement (types : List String)
    (hsub : ∀ t ∈ types, t = "h" ∨ t = "t" ∨ t = "u")
    (hh : "h" ∈ types) (ht : "t" ∈ types) (hu : "u" ∈ types) :
    dummyColNames types = ["Type_t", "Type_u"] ∧
    ∀ t, dummyRecord types t = handTypeCols t := by
  have hcats := sortedCats_htu types hsub hh ht hu
  constructor
  · unfold dummyColNames
    rw [hcats]
    decide
  · intro t
    unfold dummyRecord handTypeCols
    rw [hcats]
    rfl

/-- Witness for the amended C4 at a concrete dataset observing all three
types. -/
theorem ohe_agreement_witness :
    dummyColNames ["h", "t", "u", "h"] = ["Type_t", "Type_u"] ∧
    dummyRecord ["h", "t", "u", "h"] "h" = handTypeCols "h" :=
  ⟨(ohe_agreement ["h", "t", "u", "h"] (by decide) (by decide) (by decide)
      (by decide)).1,
   (ohe_agreement ["h", "t", "u", "h"] (by decide) (by decide) (by decide)
      (by decide)).2 "h"⟩

/-- C5: the scaler is fit on `X[num_cols_scaled]`, whose width is the length
of the persisted `numeric_cols_scaled` list; the model is fit on a row subset
of `X` that keeps every column, so its expected width is the length of the
persisted `feature_columns` list (`X.columns`). -/
theorem artifact_width_contract (X : DFrame) (idx : List ℕ) :
    nFeaturesIn (X.select (numColsScaled X)) = (numColsScaled X).length ∧
    (X.selectRows idx).colNames = X.colNames ∧
    nFeaturesIn (X.selectRows idx) = X.colNames.length := by
  refine ⟨?_, ?_, ?_⟩
  · simp [nFeaturesIn, DFrame.select, DFrame.colNames, Function.comp_def]
  · simp [DFrame.selectRows, DFrame.colNames, List.map_map, Function.comp_def]
  · simp [nFeaturesIn, DFrame.selectRows, DFrame.colNames]

/-- C6: during training, a null or unparseable cell yields missing flag 1 and
is replaced by the column median over the non-null parsed values; a parsed
cell yields flag 0 and is kept unchanged; the median exists whenever some
cell parsed, and falls back to 0 when the entire column is null. -/
theorem imputation_contract (raw : List NumCell) (i : ℕ) :
    (raw[i]? = some none →
        (missingFlags raw)[i]? = some 1 ∧
        (imputeColumn raw)[i]? = some ((medianQ (raw.filterMap id)).getD 0)) ∧
    (∀ v, raw[i]? = some (some v) →
        (missingFlags raw)[i]? = some 0 ∧ (imputeColumn raw)[i]? = some v) ∧
    (raw.filterMap id ≠ [] →
        ∃ m, medianQ (raw.filterMap id) = some m ∧ colMedian raw = m) ∧
    ((∀ c ∈ raw, c = none) → colMedian raw = 0) := by
  refine ⟨fun h => ⟨?_, ?_⟩, fun v h => ⟨?_, ?_⟩, fun h => ?_, fun h => ?_⟩
  · simp [missingFlags, List.getElem?_map, h]
  · simp [imputeColumn, colMedian, List.getElem?_map, h]
  · simp [missingFlags, List.getElem?_map, h]
  · simp [imputeColumn, List.getElem?_map, h]
  · have hlen : (raw.filterMap id).length ≠ 0 :=
      fun h0 => h (List.length_eq_zero.mp h0)
    have hm : ∃ m, medianQ (raw.filterMap id) = some m := by
      unfold medianQ
      rw [if_neg hlen]
      by_cases hp : (raw.filterMap id).length % 2 = 1
      · rw [if_pos hp]
        exact ⟨_, rfl⟩
      · rw [if_neg hp]
        exact ⟨_, rfl⟩
    obtain ⟨m, hm⟩ := hm
    exact ⟨m, hm, by simp [colMedian, hm]⟩
  · have h0 : raw.filterMap id = [] := by
      rw [List.filterMap_eq_nil_iff]
      intro a ha
      rw [h a ha]
      rfl
    simp [colMedian, h0, medianQ]

/-- Witness for C6: the null middle cell of a three-cell column is flagged and
replaced by the median 2 of the parsed values 1 and 3. -/
theorem imputation_contract_witness :
    ([some 1, none, some 3] : List NumCell)[1]? = some none ∧
    (missingFlags [some 1, none, some 3])[1]? = some 1 ∧
    (imputeColumn [some 1, none, some 3])[1]? =
      some ((medianQ (([some 1, none, some 3] : List NumCell).filterMap id)).getD 0) :=
  ⟨by decide,
   ((imputation_contract [some 1, none, some 3] 1).1 (by decide)).1,
   ((imputation_contract [some 1, none, some 3] 1).1 (by decide)).2⟩

/-- A key is in the fitted dict exactly when it occurs among the
(fillna-keyed) categories of the series the encoder was fit on. -/
theorem mapping_mem_iff (rows : List (CatCell × ℚ)) (s : ℚ) (c : String) :
    (compute_te_map rows s).mapping c ≠ none ↔
      c ∈ rows.map (fun r => catKey "Unknown" r.1) := by
  have hiff : (groupVals rows c).length = 0 ↔
      c ∉ rows.map (fun r => catKey "Unknown" r.1) := by
    rw [List.length_eq_zero]
    unfold groupVals
    rw [List.map_eq_nil_iff, List.filter_eq_nil_iff]
    constructor
    · intro hall hc
      obtain ⟨r, hr, he⟩ := List.mem_map.mp hc
      exact hall r hr (by simp [he])
    · intro hc r hr hbeq
      exact hc (List.mem_map.mpr ⟨r, hr, by simpa using hbeq⟩)
  simp only [compute_te_map]
  by_cases h : (groupVals rows c).length = 0
  · rw [if_pos h]
    simp [hiff.mp h]
  · rw [if_neg h]
    have hc : c ∈ rows.map (fun r => catKey "Unknown" r.1) :=
      not_not.mp (fun hc => h (hiff.mpr hc))
    simp [hc]

/-- The group keys of the fitted suburb series are exactly the stringified,
stripped raw suburb values. -/
theorem suburb_keys (raw : List CatCell) (y : List ℚ)
    (hlen : raw.length = y.length) :
    ((suburbCol raw).zip y).map (fun r => catKey "Unknown" r.1) =
      raw.map stringifyStrip := by
  have h1 : ((suburbCol raw).zip y).map (fun r => catKey "Unknown" r.1) =
      (((suburbCol raw).zip y).map Prod.fst).map (catKey "Unknown") := by
    rw [List.map_map]
    rfl
  rw [h1, List.map_fst_zip]
  · rw [suburbCol, List.map_map]
    rfl
  · rw [suburbCol, List.length_map, hlen]

/-- C10: training stringifies and strips `Suburb` before target encoding, so
a null suburb becomes the literal string `nan`; the series handed to the
encoder fit contains no null cell, so the `fillna("Unknown")` branch never
fires (an `Unknown` key exists only if that literal string is in the data);
the dict keys are exactly the stringified suburb values, and with a null
suburb in the data the string `nan` is a key of the persisted encoding map
and a member of `all_suburbs`. -/
theorem nan_suburb_category (raw : List CatCell) (y : List ℚ)
    (hlen : raw.length = y.length) :
    stringifyStrip none = "nan" ∧
    (∀ p ∈ (suburbCol raw).zip y, p.1 ≠ none) ∧
    (∀ c : String,
        (suburbTE raw y).mapping c ≠ none ↔ c ∈ raw.map stringifyStrip) ∧
    (none ∈ raw →
        (suburbTE raw y).mapping "nan" ≠ none ∧ "nan" ∈ all_suburbs raw) ∧
    ((suburbTE raw y).mapping "Unknown" ≠ none →
        "Unknown" ∈ raw.map stringifyStrip) := by
  have hmapiff : ∀ c : String,
      (suburbTE raw y).mapping c ≠ none ↔ c ∈ raw.map stringifyStrip := by
    intro c
    rw [suburbTE, mapping_mem_iff, suburb_keys raw y hlen]
  have hnanstr : stringifyStrip none = "nan" := by decide
  refine ⟨hnanstr, ?_, hmapiff, fun hn => ?_, fun hu => (hmapiff "Unknown").mp hu⟩
  · rintro ⟨a, b⟩ hp
    have ha : a ∈ suburbCol raw := (List.of_mem_zip hp).1
    obtain ⟨c, _, hc⟩ := List.mem_map.mp ha
    simp [← hc]
  · have hnan : "nan" ∈ raw.map stringifyStrip :=
      List.mem_map.mpr ⟨none, hn, hnanstr⟩
    refine ⟨(hmapiff "nan").mpr hnan, ?_⟩
    exact (List.perm_insertionSort _ _).mem_iff.mpr (List.mem_dedup.mpr hnan)

/-- Witness for C10: a two-row dataset whose second suburb is null puts the
key `nan` into the fitted mapping and into `all_suburbs`. -/
theorem nan_suburb_category_witness :
    (suburbTE [some " A ", none] [100, 200]).mapping "nan" ≠ none ∧
    "nan" ∈ all_suburbs [some " A ", none] :=
  (nan_suburb_category [some " A ", none] [100, 200] (by decide)).2.2.2.1
    (by decide)

end HousePrice
